import Mathlib

/-!
Verification development for the localflare repository's binding-discovery and
state-access layer. The definitions below are shallow embeddings of the
TypeScript sources:
  - packages/api/src/routes/d1.ts   (relational accessor routes)
  - the KV routes module            (key-value accessor routes)
  - packages/api/src/routes/r2.ts   (object-storage accessor routes)
  - packages/cli/src/do-storage.ts  (actor-storage accessor)
  - packages/cli/src/shadow-config.ts (manifest merger / shadow config)
  - packages/api/src/worker/routes/do.ts (actor-storage bridge)
JavaScript-specific semantics (truthiness, parseInt, Number, array index
fallback) are modelled explicitly by the js* helpers. File systems and SQLite
tables are modelled as association lists keyed by strings.
-/

namespace Localflare

/-- JS truthiness of an optional string: undefined and the empty string are falsy. -/
def jsTruthyStrOpt : Option String → Bool
  | none => false
  | some s => s ≠ ""

/-- JS truthiness of an optional number: undefined and 0 are falsy. -/
def jsTruthyIntOpt : Option Int → Bool
  | none => false
  | some n => n ≠ 0

/-- The JS idiom x or-else d on an optional string: the default is used when
x is undefined or the empty string. -/
def jsOrStr (x : Option String) (d : String) : String :=
  match x with
  | none => d
  | some s => if s = "" then d else s

/-- The JS idiom n or-else d on a number that may be NaN (modelled as none):
NaN and 0 both fall back to the default. -/
def jsOrNum (x : Option Int) (d : Int) : Int :=
  match x with
  | none => d
  | some n => if n = 0 then d else n

/-- Value of a list of decimal digit characters. -/
def digitsVal (ds : List Char) : Nat :=
  ds.foldl (fun acc c => 10 * acc + (c.toNat - 48)) 0

/-- JS parseInt(s, 10): skip leading whitespace, optional sign, then the longest
run of leading decimal digits; NaN (none) when no digit is found. -/
def parseIntJs (s : String) : Option Int :=
  let cs := s.toList.dropWhile (fun c => c.isWhitespace)
  let signAndRest : Int × List Char :=
    match cs with
    | '-' :: rest => (-1, rest)
    | '+' :: rest => (1, rest)
    | _ => (1, cs)
  let ds := signAndRest.2.takeWhile (fun c => c.isDigit)
  if ds.isEmpty then none else some (signAndRest.1 * (digitsVal ds : Int))

/-- JS Number(x) on an optional query-string value, restricted to the integer
fragment used by this code base: undefined is NaN (none), the empty or
all-whitespace string is 0, an optional sign followed by digits only is that
integer, and anything else is NaN. Fractional, hexadecimal and exponent
literals are outside the modelled fragment. -/
def jsNumber (x : Option String) : Option Int :=
  match x with
  | none => none
  | some s =>
    let cs := s.toList.dropWhile (fun c => c.isWhitespace)
    let cs := (cs.reverse.dropWhile (fun c => c.isWhitespace)).reverse
    if cs.isEmpty then some 0
    else
      let signAndRest : Int × List Char :=
        match cs with
        | '-' :: rest => (-1, rest)
        | '+' :: rest => (1, rest)
        | _ => (1, cs)
      if !signAndRest.2.isEmpty && signAndRest.2.all (fun c => c.isDigit)
      then some (signAndRest.1 * (digitsVal signAndRest.2 : Int))
      else none

/-- JS array indexing list[i] for a possibly negative index: undefined (none)
outside the bounds. -/
def jsIndex {α : Type} (l : List α) (i : Int) : Option α :=
  if h : 0 ≤ i ∧ i.toNat < l.length then some (l.get ⟨i.toNat, h.2⟩) else none

/-! ### Association-list primitives

SQLite tables keyed by a unique key column, and blob directories keyed by blob
id, are modelled as association lists with these three primitives. -/

/-- Lookup by key (SELECT by key; existsSync and readFileSync of a blob). -/
def alistGet {α : Type} (l : List (String × α)) (k : String) : Option α :=
  (l.find? (fun p => p.1 == k)).map (fun p => p.2)

/-- Insert or replace by key (INSERT OR REPLACE; writeFileSync overwrite). -/
def alistSet {α : Type} : List (String × α) → String → α → List (String × α)
  | [], k, v => [(k, v)]
  | (k', v') :: rest, k, v =>
    if k' == k then (k, v) :: rest else (k', v') :: alistSet rest k v

/-- Remove by key (DELETE by key; unlinkSync guarded by existsSync). -/
def alistRemove {α : Type} (l : List (String × α)) (k : String) : List (String × α) :=
  l.filter (fun p => p.1 != k)

/-! ### Character-level models of the JS string methods used by the sources

These are defined over character lists so that every definition evaluates
inside the kernel; each String argument enters through toList. JS trim and
toUpperCase are modelled by their ASCII behaviour, which covers every string
the sources compare against. -/

/-- JS String.prototype.trim. -/
def jsTrimChars (cs : List Char) : List Char :=
  ((cs.dropWhile (fun c => c.isWhitespace)).reverse.dropWhile
    (fun c => c.isWhitespace)).reverse

/-- JS String.prototype.toUpperCase. -/
def jsToUpperChars (cs : List Char) : List Char :=
  cs.map Char.toUpper

/-- JS String.prototype.startsWith. -/
def strStartsWith (s sfx : String) : Bool :=
  sfx.toList.isPrefixOf s.toList

/-- JS String.prototype.endsWith. -/
def strEndsWith (s sfx : String) : Bool :=
  sfx.toList.isSuffixOf s.toList

/-- Code-unit lexicographic comparison of character lists. -/
def lexLeChars : List Char → List Char → Bool
  | [], _ => true
  | _ :: _, [] => false
  | a :: as, b :: bs => if a = b then lexLeChars as bs else decide (a < b)

/-- Code-unit lexicographic order on strings. It models the
a.localeCompare(b) comparator of do-storage.ts, with which it agrees on the
lowercase ASCII directory names compared there. -/
def lexLe (a b : String) : Bool :=
  lexLeChars a.toList b.toList

/-! ### Read/write classification of arbitrary SQL statements (claim C7)

Source, d1.ts POST query:
  const isRead = sql.trim().toUpperCase().startsWith('SELECT')
Source, do-storage.ts POST query:
  const trimmedSql = sql.trim().toUpperCase()
  const isRead = trimmedSql.startsWith('SELECT') ||
    trimmedSql.startsWith('PRAGMA') || trimmedSql.startsWith('EXPLAIN') -/

/-- The relational accessor's read/write classifier (d1.ts). -/
def d1IsReadQuery (sql : String) : Bool :=
  "SELECT".toList.isPrefixOf (jsToUpperChars (jsTrimChars sql.toList))

/-- The actor-storage accessor's read/write classifier (do-storage.ts). -/
def doIsReadQuery (sql : String) : Bool :=
  let t := jsToUpperChars (jsTrimChars sql.toList)
  "SELECT".toList.isPrefixOf t || "PRAGMA".toList.isPrefixOf t ||
    "EXPLAIN".toList.isPrefixOf t

/-! ### Pagination parameter handling (claim C5) -/

/-- do-storage.ts readPositiveInt: Number(value), fall back when not finite or
negative, else Math.floor (identity on the integer fragment modelled here). -/
def readPositiveInt (value : Option String) (fallback : Int) : Int :=
  match jsNumber value with
  | none => fallback
  | some n => if n < 0 then fallback else n

/-- Limit and offset computed by the actor-storage rows route:
min(readPositiveInt(limit, 50), 1000) and readPositiveInt(offset, 0). -/
def doRowsParams (limit offset : Option String) : Int × Int :=
  (min (readPositiveInt limit 50) 1000, readPositiveInt offset 0)

/-- Limit and offset computed by the actor-storage kv route:
min(readPositiveInt(limit, 100), 1000) and readPositiveInt(offset, 0). -/
def doKvParams (limit offset : Option String) : Int × Int :=
  (min (readPositiveInt limit 100) 1000, readPositiveInt offset 0)

/-- Limit and offset computed by the relational rows route (d1.ts):
Number(limit) or-else 100 and Number(offset) or-else 0, passed to
LIMIT ? OFFSET ? unchanged. -/
def d1RowsParams (limit offset : Option String) : Int × Int :=
  (jsOrNum (jsNumber limit) 100, jsOrNum (jsNumber offset) 0)

/-! ### Binding resolution of the relational and key-value accessors (claim C2)

Source, d1.ts getDatabase:
  const dbFile = stateInfo.d1Databases.find(
    (f) => f.binding === binding || f.filename.startsWith(binding))
  const index = parseInt(binding, 10)
  const file = dbFile ?? (Number.isInteger(index)
    ? stateInfo.d1Databases[index] : stateInfo.d1Databases[0])
  if (!file) return null
The KV routes module's getDatabase resolves its file identically over
stateInfo.kvNamespaces (its blob-directory computation is path arithmetic and
is not modelled; which physical file is opened is). -/

/-- One entry of WranglerStateInfo's per-type file list: a physical storage
file discovered on disk, with the binding name matched to it (if any). -/
structure StateFile where
  binding : Option String
  filename : String
  path : String
  deriving Repr, DecidableEq

/-- Shared file-resolution logic of d1.ts getDatabase and the KV module's
getDatabase: match by binding name or filename, falling back to a
numeric index or the first file of the list. -/
def resolveStateFile (files : List StateFile) (binding : String) : Option StateFile :=
  let found := files.find?
    (fun f => f.binding == some binding || strStartsWith f.filename binding)
  match found with
  | some f => some f
  | none =>
    match parseIntJs binding with
    | some i => jsIndex files i
    | none => files.head?

/-- d1.ts getDatabase, restricted to which physical file it opens (the
returned handle is a fresh connection to this file). -/
def d1GetDatabase (d1Databases : List StateFile) (binding : String) :
    Option StateFile :=
  resolveStateFile d1Databases binding

/-- The KV routes module's getDatabase, restricted to which physical file it
opens. -/
def kvGetDatabase (kvNamespaces : List StateFile) (binding : String) :
    Option StateFile :=
  resolveStateFile kvNamespaces binding

/-! ### Actor-storage directory resolution (claim C9)

Source: do-storage.ts findDODir. The directory listing of
persistPath/v3/do is passed in as an optional list of directory names
(none models a missing directory, the existsSync guard); the function
returns the chosen directory name (the source returns
join(doStateDir, name) of that same name). -/

/-- One entry of the manifest's durable-object list. -/
structure ManifestDOEntry where
  binding : String
  className : String
  deriving Repr, DecidableEq

/-- Insertion of a string into a list sorted by lexLe. -/
def insertSorted (x : String) : List String → List String
  | [] => [x]
  | y :: ys => if lexLe x y then x :: y :: ys else y :: insertSorted x ys

/-- Insertion sort by lexLe; models sort((a, b) => a.localeCompare(b)). -/
def sortStrings (l : List String) : List String :=
  l.foldr insertSorted []

/-- do-storage.ts findDODir: resolve the on-disk directory for a durable
object binding. -/
def findDODir (manifestName : String) (doList : List ManifestDOEntry)
    (doStateDirListing : Option (List String)) (binding : String) :
    Option String :=
  match doList.find? (fun d => d.binding == binding) with
  | none => none
  | some doConfig =>
    match doStateDirListing with
    | none => none
    | some names =>
      let dirs := names.filter (fun d => strEndsWith d ("-" ++ doConfig.className))
      if dirs.isEmpty then none
      else
        let exactName := manifestName ++ "-" ++ doConfig.className
        match dirs.find? (fun d => d == exactName) with
        | some d => some d
        | none =>
          if dirs.length == 1 then dirs.head?
          else (sortStrings dirs).head?

/-! ### The key-value store state machine (claims C1, C6, C10)

The KV routes module operates on a SQLite table _mf_entries (rows keyed by
key) and a blob directory (files keyed by blob id). Both are modelled as
association lists inside KVState. Each handler below is the sequence of
state-changing statements of the corresponding route, in source order. -/

/-- One row of the _mf_entries table. -/
structure KVRow where
  blob_id : String
  expiration : Option Int
  metadata : Option String
  deriving Repr, DecidableEq

/-- The key-value store's on-disk state: the blob directory (blob id to
contents) and the metadata table (key to row). -/
structure KVState where
  blobs : List (String × String)
  rows : List (String × KVRow)
  deriving Repr, DecidableEq

/-- Expiration computed by the PUT handler:
body.expiration if truthy, else now seconds plus ttl if truthy, else null. -/
def computeExpiration (nowMs : Int) (bodyExpiration bodyTtl : Option Int) :
    Option Int :=
  if jsTruthyIntOpt bodyExpiration then bodyExpiration
  else if jsTruthyIntOpt bodyTtl then some (nowMs / 1000 + bodyTtl.getD 0)
  else none

/-- The PUT keys handler of the KV routes module, as the list of states the
store passes through: initial state, after writeBlob(blobDir, blobId, data),
after the conditional deleteBlob of the old row's blob id (the SELECT of the
old row happens between the two), and after the INSERT OR REPLACE upsert. -/
def kvPutStates (nowMs : Int) (s : KVState) (key blobId value : String)
    (bodyExpiration bodyTtl : Option Int) (bodyMetadata : Option String) :
    List KVState :=
  let s1 : KVState := ⟨alistSet s.blobs blobId value, s.rows⟩
  let s2 : KVState :=
    match alistGet s1.rows key with
    | some oldRow => ⟨alistRemove s1.blobs oldRow.blob_id, s1.rows⟩
    | none => s1
  let s3 : KVState :=
    ⟨s2.blobs,
     alistSet s2.rows key
       ⟨blobId, computeExpiration nowMs bodyExpiration bodyTtl, bodyMetadata⟩⟩
  [s, s1, s2, s3]

/-- Response of the GET keys handler. The JSON decode of the value for
type=json is not modelled; the raw blob contents are returned. -/
inductive KVGetResult where
  | err (message : String) (status : Nat)
  | ok (key value : String) (metadata : Option String)
  deriving Repr, DecidableEq

/-- The GET keys handler of the KV routes module: missing row is 404
Key not found; a row whose expiration is truthy and earlier than
Date.now() / 1000 is the same 404 Key not found; a missing blob is 404
Blob not found; otherwise the blob contents are returned. The source
comparison expiration less-than nowMs / 1000 is modelled exactly as
expiration times 1000 less-than nowMs. -/
def kvGet (nowMs : Int) (s : KVState) (key : String) : KVGetResult :=
  match alistGet s.rows key with
  | none => .err "Key not found" 404
  | some row =>
    if jsTruthyIntOpt row.expiration && decide (row.expiration.getD 0 * 1000 < nowMs)
    then .err "Key not found" 404
    else
      match alistGet s.blobs row.blob_id with
      | none => .err "Blob not found" 404
      | some value => .ok key value row.metadata

/-- The DELETE keys handler of the KV routes module: when the row exists its
blob is deleted and then the row; either way the response is success. -/
def kvDelete (s : KVState) (key : String) : KVState × Bool :=
  match alistGet s.rows key with
  | some row =>
    (⟨alistRemove s.blobs row.blob_id, alistRemove s.rows key⟩, true)
  | none => (s, true)

/-- The bulk-delete handler of the KV routes module: the DELETE body is run
for each key; the response is success with deleted = keys.length. -/
def kvBulkDelete (s : KVState) (keys : List String) : KVState × Bool × Nat :=
  (keys.foldl
    (fun st k =>
      match alistGet st.rows k with
      | some row => ⟨alistRemove st.blobs row.blob_id, alistRemove st.rows k⟩
      | none => st)
    s, true, keys.length)

/-! ### The object-store state machine (claims C1, C10)

Source: r2.ts. The _mf_objects table and the blob directory are modelled as
in KVState; the JSON-serialized checksums / http_metadata / custom_metadata
columns are modelled by their deserialized contents. -/

/-- One row of the _mf_objects table. -/
structure R2Row where
  blob_id : Option String
  version : String
  size : Nat
  etag : String
  uploaded : Int
  contentType : String
  customMetadata : List (String × String)
  deriving Repr, DecidableEq

/-- The object store's on-disk state. -/
structure R2State where
  blobs : List (String × String)
  rows : List (String × R2Row)
  deriving Repr, DecidableEq

/-- The PUT objects handler of r2.ts, as the list of states the store passes
through: initial, after writeBlob, after the conditional deleteBlob of the
old row's blob id (guarded by oldRow?.blob_id being truthy), and after the
INSERT OR REPLACE upsert. blobId and version are the random ids the handler
generates and etag is the md5 hex digest of data, all passed in as
parameters. -/
def r2PutStates (s : R2State) (key blobId version data etag : String)
    (uploaded : Int) (contentType : String)
    (customMetadata : List (String × String)) : List R2State :=
  let s1 : R2State := ⟨alistSet s.blobs blobId data, s.rows⟩
  let s2 : R2State :=
    match alistGet s1.rows key with
    | some oldRow =>
      match oldRow.blob_id with
      | some b => if b = "" then s1 else ⟨alistRemove s1.blobs b, s1.rows⟩
      | none => s1
    | none => s1
  let s3 : R2State :=
    ⟨s2.blobs,
     alistSet s2.rows key
       ⟨some blobId, version, data.length, etag, uploaded, contentType,
        customMetadata⟩⟩
  [s, s1, s2, s3]

/-- The DELETE objects handler of r2.ts: the blob is deleted when the row
exists with a truthy blob id; the row delete statement runs unconditionally;
the response is success. -/
def r2Delete (s : R2State) (key : String) : R2State × Bool :=
  let s1 : R2State :=
    match alistGet s.rows key with
    | some row =>
      match row.blob_id with
      | some b => if b = "" then s else ⟨alistRemove s.blobs b, s.rows⟩
      | none => s
    | none => s
  (⟨s1.blobs, alistRemove s1.rows key⟩, true)

/-- The bulk-delete handler of r2.ts: the DELETE body is run for each key;
the response is success with deleted = keys.length. -/
def r2BulkDelete (s : R2State) (keys : List String) : R2State × Bool × Nat :=
  (keys.foldl
    (fun st k =>
      let st1 : R2State :=
        match alistGet st.rows k with
        | some row =>
          match row.blob_id with
          | some b => if b = "" then st else ⟨alistRemove st.blobs b, st.rows⟩
          | none => st
        | none => st
      ⟨st1.blobs, alistRemove st1.rows k⟩)
    s, true, keys.length)

/-! ### Configuration merging and the shadow config (claims C3, C4)

Source: shadow-config.ts. WranglerConfig's optional binding arrays are
modelled as plain lists (a missing array and the empty list are handled
identically by the source's or-else-empty defaults); durable_objects models
the source's durable_objects?.bindings. vars models Object.entries order.
The workers field keeps each config's display name; the configPath stored
with it is a filesystem path and is not modelled. -/

structure D1DatabaseConfig where
  binding : String
  database_name : String
  database_id : String
  deriving Repr, DecidableEq

structure KVNamespaceConfig where
  binding : String
  id : String
  deriving Repr, DecidableEq

structure R2BucketConfig where
  binding : String
  bucket_name : String
  deriving Repr, DecidableEq

structure QueueProducerConfig where
  binding : String
  queue : String
  deriving Repr, DecidableEq

structure QueueConsumerConfig where
  queue : String
  max_batch_size : Option Int
  max_batch_timeout : Option Int
  max_retries : Option Int
  dead_letter_queue : Option String
  deriving Repr, DecidableEq

structure DurableObjectBinding where
  name : String
  class_name : String
  script_name : Option String
  deriving Repr, DecidableEq

structure WranglerConfig where
  name : Option String
  d1_databases : List D1DatabaseConfig
  kv_namespaces : List KVNamespaceConfig
  r2_buckets : List R2BucketConfig
  durable_objects : List DurableObjectBinding
  queueProducers : List QueueProducerConfig
  queueConsumers : List QueueConsumerConfig
  vars : List (String × String)
  deriving Repr, DecidableEq

structure ManifestD1 where
  binding : String
  database_name : String
  deriving Repr, DecidableEq

structure ManifestKV where
  binding : String
  deriving Repr, DecidableEq

structure ManifestR2 where
  binding : String
  bucket_name : String
  deriving Repr, DecidableEq

structure ManifestProducer where
  binding : String
  queue : String
  deriving Repr, DecidableEq

structure ManifestConsumer where
  queue : String
  max_batch_size : Option Int
  max_batch_timeout : Option Int
  max_retries : Option Int
  dead_letter_queue : Option String
  deriving Repr, DecidableEq

structure ManifestVar where
  key : String
  value : String
  isSecret : Bool
  deriving Repr, DecidableEq

/-- The merged LocalflareManifest. The doBindings field models the source's
field named do (a Lean keyword). -/
structure LocalflareManifest where
  name : String
  d1 : List ManifestD1
  kv : List ManifestKV
  r2 : List ManifestR2
  producers : List ManifestProducer
  consumers : List ManifestConsumer
  doBindings : List ManifestDOEntry
  vars : List ManifestVar
  workers : List String
  deriving Repr, DecidableEq

/-- Substring test: needle occurs somewhere in hay. -/
def containsSubChars (needle : List Char) : List Char → Bool
  | [] => needle.isEmpty
  | c :: rest => needle.isPrefixOf (c :: rest) || containsSubChars needle rest

/-- shadow-config.ts looksLikeSecret: the key matches one of the
case-insensitive secret-name patterns (the api pattern covers its three
spellings), or the value is a long run of word characters and hyphens. -/
def looksLikeSecret (key value : String) : Bool :=
  let k := key.toList.map Char.toLower
  let hasPat (p : String) : Bool := containsSubChars p.toList k
  (hasPat "secret" || hasPat "password" ||
    hasPat "apikey" || hasPat "api_key" || hasPat "api-key" ||
    hasPat "token" || hasPat "auth" || hasPat "private" || hasPat "credential") ||
  (decide (value.length > 20) &&
    value.toList.all (fun c => c.isAlphanum || c = '_' || c = '-'))

/-- First-occurrence deduplication keyed by a string, with the seen set
carried explicitly: the shared shape of every per-type merge loop in
createMergedManifest and generateShadowConfig. -/
def dedupeKeyed {α : Type} (key : α → String) : List α → List String → List α
  | [], _ => []
  | x :: xs, seen =>
    if key x ∈ seen then dedupeKeyed key xs seen
    else x :: dedupeKeyed key xs (key x :: seen)

/-- shadow-config.ts createMergedManifest. The source throws on an empty
config list, modelled as none. Each binding type is iterated in config
order and deduplicated by its name key, first occurrence winning; queue
consumers are keyed by their queue name. -/
def createMergedManifest (configs : List WranglerConfig) :
    Option LocalflareManifest :=
  match configs with
  | [] => none
  | primary :: _ =>
    some
      { name := jsOrStr primary.name "worker"
        d1 := dedupeKeyed (fun e => e.binding)
          (configs.flatMap (fun c => c.d1_databases.map
            (fun d => ManifestD1.mk d.binding d.database_name))) []
        kv := dedupeKeyed (fun e => e.binding)
          (configs.flatMap (fun c => c.kv_namespaces.map
            (fun x => ManifestKV.mk x.binding))) []
        r2 := dedupeKeyed (fun e => e.binding)
          (configs.flatMap (fun c => c.r2_buckets.map
            (fun x => ManifestR2.mk x.binding x.bucket_name))) []
        producers := dedupeKeyed (fun e => e.binding)
          (configs.flatMap (fun c => c.queueProducers.map
            (fun p => ManifestProducer.mk p.binding p.queue))) []
        consumers := dedupeKeyed (fun e => e.queue)
          (configs.flatMap (fun c => c.queueConsumers.map
            (fun q => ManifestConsumer.mk q.queue q.max_batch_size
              q.max_batch_timeout q.max_retries q.dead_letter_queue))) []
        doBindings := dedupeKeyed (fun e => e.binding)
          (configs.flatMap (fun c => c.durable_objects.map
            (fun d => ManifestDOEntry.mk d.name d.class_name))) []
        vars := dedupeKeyed (fun e => e.key)
          (configs.flatMap (fun c => c.vars.map
            (fun v => ManifestVar.mk v.1 v.2 (looksLikeSecret v.1 v.2)))) []
        workers := configs.map (fun c => jsOrStr c.name "worker") }

/-- One step of buildDOClassOwnerMap: a binding with no script_name (JS
falsy) defines its class locally and claims ownership if the class is not
already owned. -/
def ownerStep (workerName : String) (m : List (String × String))
    (b : DurableObjectBinding) : List (String × String) :=
  if !jsTruthyStrOpt b.script_name && (alistGet m b.class_name).isNone
  then m ++ [(b.class_name, workerName)]
  else m

/-- shadow-config.ts buildDOClassOwnerMap: for each config in order, each
durable-object binding without a script_name registers the config's worker
name as the owner of its class, first registration winning. -/
def buildDOClassOwnerMap (configs : List WranglerConfig) :
    List (String × String) :=
  configs.foldl
    (fun m cfg =>
      cfg.durable_objects.foldl (ownerStep (jsOrStr cfg.name "user-worker")) m)
    []

/-- One durable-object binding block emitted into the shadow TOML. -/
structure ShadowDOBinding where
  name : String
  class_name : String
  script_name : String
  deriving Repr, DecidableEq

/-- The durable-object binding blocks emitted by generateShadowConfig, as
structured values (the TOML text rendering is not modelled): bindings are
deduplicated by binding name across configs in order, and each one's
script_name is the class owner from buildDOClassOwnerMap, falling back to
the primary config's worker name. The source indexes configs[0]; the empty
list is outside its domain and yields the bare fallback here. -/
def shadowDOBindings (configs : List WranglerConfig) : List ShadowDOBinding :=
  let userWorkerName := jsOrStr (configs.head?.bind (fun c => c.name)) "user-worker"
  let doClassOwners := buildDOClassOwnerMap configs
  (dedupeKeyed (fun b => b.name)
      (configs.flatMap (fun c => c.durable_objects)) []).map
    (fun b =>
      ShadowDOBinding.mk b.name b.class_name
        (jsOrStr (alistGet doClassOwners b.class_name) userWorkerName))

/-! ### The actor-storage bridge (claim C8)

Source: packages/api/src/worker/routes/do.ts. The network is modelled as an
oracle from URL and request init to an optional response; none models a
fetch that throws (target unreachable). -/

structure HttpResponse where
  status : Nat
  body : String
  deriving Repr, DecidableEq

structure RequestInit where
  method : String
  contentType : Option String
  body : Option String
  deriving Repr, DecidableEq

/-- The init of a plain GET fetch (no RequestInit passed by the source). -/
def getInit : RequestInit := RequestInit.mk "GET" none none

/-- Hexadecimal digit characters. -/
def hexDigitChar (n : Nat) : Char :=
  "0123456789ABCDEF".toList.getD n '0'

/-- JS encodeURIComponent, modelled per character for the ASCII range (the
multi-byte UTF-8 expansion of non-ASCII characters is outside the modelled
fragment; the sources only pass it binding, instance and table names). -/
def encodeURIComponentJs (s : String) : String :=
  String.mk (s.toList.flatMap (fun c =>
    if c.isAlphanum || c = '-' || c = '_' || c = '.' || c = '!' || c = '~' ||
        c = '*' || c = '\'' || c = '(' || c = ')'
    then [c]
    else ['%', hexDigitChar (c.toNat / 16), hexDigitChar (c.toNat % 16)]))

/-- Response of a bridged route: either the host's response forwarded
unmodified, or the service-unavailable JSON error. -/
inductive RouteResponse where
  | proxied (r : HttpResponse)
  | unavailable (error : String) (hint : Option String) (status : Nat)
  deriving Repr, DecidableEq

/-- worker/routes/do.ts proxyToStorageServer: null when the storage-server
URL is not configured (JS falsy), or when the forwarded fetch throws. -/
def proxyToStorageServer (baseUrl : Option String)
    (oracle : String → RequestInit → Option HttpResponse)
    (path : String) (init : RequestInit) : Option HttpResponse :=
  if jsTruthyStrOpt baseUrl then oracle (baseUrl.getD "" ++ path) init
  else none

/-- GET binding/storage/instances: proxied, else 503 with a hint. -/
def doInstancesRoute (baseUrl : Option String)
    (oracle : String → RequestInit → Option HttpResponse)
    (binding : String) : RouteResponse :=
  match proxyToStorageServer baseUrl oracle
      ("/do/" ++ encodeURIComponentJs binding ++ "/instances") getInit with
  | some r => .proxied r
  | none => .unavailable "DO storage server not available"
      (some "Ensure localflare started with DO bindings.") 503

/-- GET binding/instanceId/storage/schema: proxied, else 503. -/
def doSchemaRoute (baseUrl : Option String)
    (oracle : String → RequestInit → Option HttpResponse)
    (binding instanceId : String) : RouteResponse :=
  match proxyToStorageServer baseUrl oracle
      ("/do/" ++ encodeURIComponentJs binding ++ "/" ++
        encodeURIComponentJs instanceId ++ "/schema") getInit with
  | some r => .proxied r
  | none => .unavailable "DO storage server not available" none 503

/-- GET binding/instanceId/storage/tables/table: proxied, else 503. -/
def doTableInfoRoute (baseUrl : Option String)
    (oracle : String → RequestInit → Option HttpResponse)
    (binding instanceId table : String) : RouteResponse :=
  match proxyToStorageServer baseUrl oracle
      ("/do/" ++ encodeURIComponentJs binding ++ "/" ++
        encodeURIComponentJs instanceId ++ "/tables/" ++
        encodeURIComponentJs table) getInit with
  | some r => .proxied r
  | none => .unavailable "DO storage server not available" none 503

/-- GET binding/instanceId/storage/tables/table/rows with the raw query
string forwarded: proxied, else 503. -/
def doTableRowsRoute (baseUrl : Option String)
    (oracle : String → RequestInit → Option HttpResponse)
    (binding instanceId table qs : String) : RouteResponse :=
  match proxyToStorageServer baseUrl oracle
      ("/do/" ++ encodeURIComponentJs binding ++ "/" ++
        encodeURIComponentJs instanceId ++ "/tables/" ++
        encodeURIComponentJs table ++ "/rows" ++
        (if qs = "" then "" else "?" ++ qs)) getInit with
  | some r => .proxied r
  | none => .unavailable "DO storage server not available" none 503

/-- POST binding/instanceId/storage/query with the body forwarded verbatim:
proxied, else 503. -/
def doQueryRoute (baseUrl : Option String)
    (oracle : String → RequestInit → Option HttpResponse)
    (binding instanceId body : String) : RouteResponse :=
  match proxyToStorageServer baseUrl oracle
      ("/do/" ++ encodeURIComponentJs binding ++ "/" ++
        encodeURIComponentJs instanceId ++ "/query")
      (RequestInit.mk "POST" (some "application/json") (some body)) with
  | some r => .proxied r
  | none => .unavailable "DO storage server not available" none 503

/-- GET binding/instanceId/storage/kv with the raw query string forwarded:
proxied, else 503. -/
def doKvEntriesRoute (baseUrl : Option String)
    (oracle : String → RequestInit → Option HttpResponse)
    (binding instanceId qs : String) : RouteResponse :=
  match proxyToStorageServer baseUrl oracle
      ("/do/" ++ encodeURIComponentJs binding ++ "/" ++
        encodeURIComponentJs instanceId ++ "/kv" ++
        (if qs = "" then "" else "?" ++ qs)) getInit with
  | some r => .proxied r
  | none => .unavailable "DO storage server not available" none 503

/-! ### Concrete configurations used as witnesses -/

/-- A config declaring one binding of every type (names shared with
witnessMergeB, values distinct). -/
def witnessMergeA : WranglerConfig :=
  WranglerConfig.mk (some "alpha")
    [D1DatabaseConfig.mk "DB" "adb" "aid"]
    [KVNamespaceConfig.mk "KV" "akv"]
    [R2BucketConfig.mk "BUCKET" "abucket"]
    [DurableObjectBinding.mk "DO" "AClass" none]
    [QueueProducerConfig.mk "Q" "aqueue"]
    [QueueConsumerConfig.mk "cq" none none none none]
    [("V", "av")]

/-- A later config redeclaring the same binding names with other values. -/
def witnessMergeB : WranglerConfig :=
  WranglerConfig.mk (some "beta")
    [D1DatabaseConfig.mk "DB" "bdb" "bid"]
    [KVNamespaceConfig.mk "KV" "bkv"]
    [R2BucketConfig.mk "BUCKET" "bbucket"]
    [DurableObjectBinding.mk "DO" "BClass" none]
    [QueueProducerConfig.mk "Q" "bqueue"]
    [QueueConsumerConfig.mk "cq" (some 5) none none none]
    [("V", "bv")]

/-- A config locally defining actor class Counter (no script_name). -/
def witnessOwnerA : WranglerConfig :=
  WranglerConfig.mk (some "svc") [] [] []
    [DurableObjectBinding.mk "COUNTER" "Counter" none] [] [] []

/-- A config referencing actor class Counter with a remote target. -/
def witnessOwnerB : WranglerConfig :=
  WranglerConfig.mk (some "other") [] [] []
    [DurableObjectBinding.mk "COUNTER2" "Counter" (some "svc")] [] [] []

/-! ## Theorems -/

theorem alistGet_cons {α : Type} (k0 : String) (v0 : α) (rest : List (String × α))
    (k : String) :
    alistGet ((k0, v0) :: rest) k = if k0 = k then some v0 else alistGet rest k := by
  by_cases h : k0 = k
  · rw [alistGet, List.find?_cons_of_pos _ (by simp [h])]
    simp [h]
  · rw [alistGet, List.find?_cons_of_neg _ (by simp [h])]
    simp [alistGet, h]

theorem alistGet_set_self {α : Type} (l : List (String × α)) (k : String) (v : α) :
    alistGet (alistSet l k v) k = some v := by
  induction l with
  | nil => simp [alistSet, alistGet_cons]
  | cons p rest ih =>
    obtain ⟨k0, v0⟩ := p
    by_cases h : k0 = k
    · simp [alistSet, h, alistGet_cons]
    · simp only [alistSet, beq_iff_eq, h, if_false]
      rw [alistGet_cons, if_neg h]
      exact ih

theorem alistGet_set_ne {α : Type} (l : List (String × α)) (k k' : String) (v : α)
    (h : k ≠ k') : alistGet (alistSet l k v) k' = alistGet l k' := by
  induction l with
  | nil => simp [alistSet, alistGet_cons, alistGet, h]
  | cons p rest ih =>
    obtain ⟨k0, v0⟩ := p
    by_cases hp : k0 = k
    · simp only [alistSet, beq_iff_eq, hp, if_true]
      rw [alistGet_cons, alistGet_cons, if_neg h, if_neg (hp ▸ h)]
    · simp only [alistSet, beq_iff_eq, hp, if_false]
      rw [alistGet_cons, alistGet_cons]
      by_cases hp' : k0 = k'
      · simp [hp']
      · simp only [hp', if_false]
        exact ih

theorem alistRemove_cons {α : Type} (k0 : String) (v0 : α) (rest : List (String × α))
    (k : String) :
    alistRemove ((k0, v0) :: rest) k =
      if k0 = k then alistRemove rest k else (k0, v0) :: alistRemove rest k := by
  by_cases h : k0 = k <;> simp [alistRemove, List.filter_cons, h]

theorem alistGet_remove_self {α : Type} (l : List (String × α)) (k : String) :
    alistGet (alistRemove l k) k = none := by
  induction l with
  | nil => simp [alistRemove, alistGet]
  | cons p rest ih =>
    obtain ⟨k0, v0⟩ := p
    rw [alistRemove_cons]
    by_cases h : k0 = k
    · simpa [h] using ih
    · rw [if_neg h, alistGet_cons, if_neg h]
      exact ih

theorem alistGet_remove_ne {α : Type} (l : List (String × α)) (k k' : String)
    (h : k ≠ k') : alistGet (alistRemove l k) k' = alistGet l k' := by
  induction l with
  | nil => simp [alistRemove, alistGet]
  | cons p rest ih =>
    obtain ⟨k0, v0⟩ := p
    rw [alistRemove_cons]
    by_cases hp : k0 = k
    · rw [if_pos hp, alistGet_cons, if_neg (by rw [hp]; exact h)]
      exact ih
    · rw [if_neg hp, alistGet_cons, alistGet_cons]
      by_cases hp' : k0 = k'
      · simp [hp']
      · simp only [hp', if_false]
        exact ih

theorem alistRemove_of_not_mem {α : Type} (l : List (String × α)) (k : String)
    (h : alistGet l k = none) : alistRemove l k = l := by
  induction l with
  | nil => rfl
  | cons p rest ih =>
    obtain ⟨k0, v0⟩ := p
    rw [alistGet_cons] at h
    by_cases hp : k0 = k
    · rw [if_pos hp] at h
      exact absurd h (by simp)
    · rw [if_neg hp] at h
      rw [alistRemove_cons, if_neg hp, ih h]

theorem lexLeChars_total (as bs : List Char) :
    lexLeChars as bs = true ∨ lexLeChars bs as = true := by
  induction as generalizing bs with
  | nil => left; rfl
  | cons a as ih =>
    cases bs with
    | nil => right; rfl
    | cons b bs =>
      by_cases h : a = b
      · rcases ih bs with h' | h'
        · left; simpa [lexLeChars, h] using h'
        · right; simpa [lexLeChars, h] using h'
      · rcases lt_or_gt_of_ne h with hlt | hgt
        · left; simp [lexLeChars, h, hlt]
        · right
          simp [lexLeChars, Ne.symm h, hgt]

theorem lexLeChars_trans (as bs cs : List Char)
    (h1 : lexLeChars as bs = true) (h2 : lexLeChars bs cs = true) :
    lexLeChars as cs = true := by
  induction as generalizing bs cs with
  | nil => rfl
  | cons a as ih =>
    cases bs with
    | nil => simp [lexLeChars] at h1
    | cons b bs =>
      cases cs with
      | nil => simp [lexLeChars] at h2
      | cons c cs =>
        by_cases hab : a = b
        · by_cases hbc : b = c
          · rw [lexLeChars, if_pos (hab.trans hbc)]
            rw [lexLeChars, if_pos hab] at h1
            rw [lexLeChars, if_pos hbc] at h2
            exact ih bs cs h1 h2
          · rw [lexLeChars, if_neg hbc, decide_eq_true_iff] at h2
            rw [lexLeChars, if_neg (by rw [hab]; exact hbc)]
            simpa [hab] using h2
        · rw [lexLeChars, if_neg hab, decide_eq_true_iff] at h1
          by_cases hbc : b = c
          · rw [lexLeChars, if_neg (by rw [← hbc]; exact hab)]
            simpa [← hbc] using h1
          · rw [lexLeChars, if_neg hbc, decide_eq_true_iff] at h2
            have hac : a < c := lt_trans h1 h2
            rw [lexLeChars, if_neg (ne_of_lt hac)]
            exact decide_eq_true hac

theorem lexLe_total (a b : String) : lexLe a b = true ∨ lexLe b a = true :=
  lexLeChars_total a.toList b.toList

theorem lexLe_trans (a b c : String) (h1 : lexLe a b = true)
    (h2 : lexLe b c = true) : lexLe a c = true :=
  lexLeChars_trans a.toList b.toList c.toList h1 h2

theorem readPositiveInt_nonneg (value : Option String) (fallback : Int)
    (hfb : 0 ≤ fallback) : 0 ≤ readPositiveInt value fallback := by
  unfold readPositiveInt
  cases jsNumber value with
  | none => exact hfb
  | some n =>
    by_cases h : n < 0
    · simpa [h] using hfb
    · simpa [h] using le_of_not_lt h

theorem find?_beq_self (l : List String) (a : String) (h : a ∈ l) :
    l.find? (fun x => x == a) = some a := by
  induction l with
  | nil => cases h
  | cons x xs ih =>
    by_cases hx : x = a
    · rw [List.find?_cons_of_pos _ (by simp [hx]), hx]
    · rw [List.find?_cons_of_neg _ (by simp [hx])]
      refine ih ?_
      rcases List.mem_cons.mp h with h' | h'
      · exact absurd h'.symm hx
      · exact h'

theorem lexLeChars_refl (as : List Char) : lexLeChars as as = true := by
  induction as with
  | nil => rfl
  | cons a as ih => simpa [lexLeChars] using ih

theorem lexLe_refl (a : String) : lexLe a a = true :=
  lexLeChars_refl a.toList

theorem sortStrings_cons (x : String) (xs : List String) :
    sortStrings (x :: xs) = insertSorted x (sortStrings xs) := rfl

theorem sortStrings_min (l : List String) (h : l ≠ []) :
    ∃ m rest, sortStrings l = m :: rest ∧ m ∈ l ∧
      ∀ x ∈ l, lexLe m x = true := by
  induction l with
  | nil => cases h rfl
  | cons x xs ih =>
    cases xs with
    | nil =>
      refine ⟨x, [], ?_, by simp, ?_⟩
      · rfl
      · intro z hz
        rw [List.mem_singleton.mp hz]
        exact lexLe_refl x
    | cons y ys =>
      obtain ⟨m, rest, hsort, hmem, hmin⟩ := ih (by simp)
      by_cases hc : lexLe x m = true
      · refine ⟨x, m :: rest, ?_, by simp, ?_⟩
        · rw [sortStrings_cons, hsort, insertSorted, if_pos hc]
        · intro z hz
          rcases List.mem_cons.mp hz with h' | h'
          · rw [h']; exact lexLe_refl x
          · exact lexLe_trans x m z hc (hmin z h')
      · have hmx : lexLe m x = true := by
          rcases lexLe_total x m with h' | h'
          · exact absurd h' hc
          · exact h'
        refine ⟨m, insertSorted x rest, ?_, List.mem_cons_of_mem _ hmem, ?_⟩
        · rw [sortStrings_cons, hsort, insertSorted, if_neg hc]
        · intro z hz
          rcases List.mem_cons.mp hz with h' | h'
          · rw [h']; exact hmx
          · exact hmin z h'

theorem dedupeKeyed_filter {α : Type} (key : α → String) (l : List α)
    (seen : List String) (n : String) :
    (dedupeKeyed key l seen).filter (fun x => key x == n) =
      if n ∈ seen then [] else (l.find? (fun x => key x == n)).toList := by
  induction l generalizing seen with
  | nil => simp [dedupeKeyed]
  | cons x xs ih =>
    by_cases hx : key x ∈ seen
    · rw [dedupeKeyed, if_pos hx, ih]
      by_cases hn : n ∈ seen
      · simp [hn]
      · have hxn : ¬ key x = n := fun hh => hn (hh ▸ hx)
        rw [if_neg hn, if_neg hn, List.find?_cons_of_neg _ (by simp [hxn])]
    · rw [dedupeKeyed, if_neg hx]
      by_cases hxn : key x = n
      · rw [List.filter_cons_of_pos (by simp [hxn]), ih,
          if_pos (by simp [hxn]), if_neg (hxn ▸ hx),
          List.find?_cons_of_pos _ (by simp [hxn])]
        rfl
      · rw [List.filter_cons_of_neg (by simp [hxn]), ih]
        by_cases hn : n ∈ seen
        · rw [if_pos (by simp [hn]), if_pos hn]
        · have hnx : ¬ n ∈ (key x :: seen) := by
            simp only [List.mem_cons]
            rintro (h' | h')
            · exact hxn h'.symm
            · exact hn h'
          rw [if_neg hnx, if_neg hn, List.find?_cons_of_neg _ (by simp [hxn])]

theorem find?_map_key {α β : Type} (f : α → β) (p : β → Bool) (q : α → Bool)
    (hpq : ∀ a, p (f a) = q a) (l : List α) :
    (l.map f).find? p = (l.find? q).map f := by
  induction l with
  | nil => rfl
  | cons a as ih =>
    by_cases h : q a = true
    · rw [List.map_cons, List.find?_cons_of_pos _ (by rw [hpq]; exact h),
        List.find?_cons_of_pos _ h]
      rfl
    · rw [List.map_cons,
        List.find?_cons_of_neg _ (by rw [hpq]; simpa using h),
        List.find?_cons_of_neg _ (by simpa using h), ih]

theorem alistGet_append_single {α : Type} (m : List (String × α))
    (k C : String) (w : α) :
    alistGet (m ++ [(k, w)]) C =
      match alistGet m C with
      | some v => some v
      | none => if k = C then some w else none := by
  induction m with
  | nil =>
    rw [List.nil_append, alistGet_cons]
    by_cases h : k = C <;> simp [alistGet, h]
  | cons p rest ih =>
    obtain ⟨k0, v0⟩ := p
    rw [List.cons_append, alistGet_cons, alistGet_cons]
    by_cases h0 : k0 = C
    · simp [h0]
    · simpa [h0] using ih

/-- Claim C7, counterexample: the two leading-keyword classifiers are not
equal on all statements; a PRAGMA statement is classified as a write by the
relational accessor and as a read by the actor-storage accessor. -/
theorem read_classifiers_differ_counterexample :
    d1IsReadQuery "PRAGMA table_info(users)" = false ∧
    doIsReadQuery "PRAGMA table_info(users)" = true := by
  constructor
  · decide
  · decide

/-- Claim C7, amended: the relational and actor-storage read/write
classifiers agree on every statement whose trimmed upper-cased text starts
with neither PRAGMA nor EXPLAIN; on those two leading keywords the
actor-storage accessor classifies the statement as a read while the
relational accessor classifies it as a write. -/
theorem read_classifiers_agree_off_pragma_explain (sql : String)
    (hp : "PRAGMA".toList.isPrefixOf (jsToUpperChars (jsTrimChars sql.toList))
      = false)
    (he : "EXPLAIN".toList.isPrefixOf (jsToUpperChars (jsTrimChars sql.toList))
      = false) :
    d1IsReadQuery sql = doIsReadQuery sql := by
  simp only [d1IsReadQuery, doIsReadQuery]
  rw [hp, he]
  simp

theorem read_classifiers_agree_off_pragma_explain_witness :
    ("PRAGMA".toList.isPrefixOf (jsToUpperChars (jsTrimChars "SELECT 1".toList))
        = false ∧
      "EXPLAIN".toList.isPrefixOf (jsToUpperChars (jsTrimChars "SELECT 1".toList))
        = false) ∧
    d1IsReadQuery "SELECT 1" = doIsReadQuery "SELECT 1" :=
  ⟨⟨by decide, by decide⟩,
    read_classifiers_agree_off_pragma_explain "SELECT 1" (by decide) (by decide)⟩

/-- Claim C5, counterexample: the relational rows endpoint does not clamp;
limit=-1 and offset=-99 are passed to the underlying query as -1 and -99. -/
theorem d1_rows_negative_passthrough_counterexample :
    d1RowsParams (some "-1") (some "-99") = (-1, -99) := by decide

/-- Claim C5, amended: only the actor-storage listing endpoints clamp
pagination. Their limit and offset are never negative for any input, and
limit=-1 with offset=-99 yields the type-specific defaults (50 for table
rows, 100 for kv entries) with offset 0; the relational rows endpoint
passes Number(limit) or-else 100 and Number(offset) or-else 0 to the query
unchanged, so limit=-1 with offset=-99 reaches the query as -1 and -99. -/
theorem pagination_clamp_do_only :
    (∀ limit offset : Option String,
      0 ≤ (doRowsParams limit offset).1 ∧ 0 ≤ (doRowsParams limit offset).2 ∧
      0 ≤ (doKvParams limit offset).1 ∧ 0 ≤ (doKvParams limit offset).2) ∧
    doRowsParams (some "-1") (some "-99") = (50, 0) ∧
    doKvParams (some "-1") (some "-99") = (100, 0) ∧
    d1RowsParams (some "-1") (some "-99") = (-1, -99) := by
  refine ⟨?_, by decide, by decide, by decide⟩
  intro limit offset
  refine ⟨?_, ?_, ?_, ?_⟩
  · exact le_min (readPositiveInt_nonneg limit 50 (by decide)) (by decide)
  · exact readPositiveInt_nonneg offset 0 (by decide)
  · exact le_min (readPositiveInt_nonneg limit 100 (by decide)) (by decide)
  · exact readPositiveInt_nonneg offset 0 (by decide)

/-- Claim C2, counterexample: a key-value or relational request naming an
unknown binding does not return NotFound; with one physical file present,
getDatabase falls back to the first file of the list and opens another
binding's database. -/
theorem unknown_binding_falls_back_counterexample :
    d1GetDatabase [StateFile.mk (some "DB") "db1.sqlite" "/state/d1/db1.sqlite"]
        "UNKNOWN"
      = some (StateFile.mk (some "DB") "db1.sqlite" "/state/d1/db1.sqlite") ∧
    kvGetDatabase [StateFile.mk (some "CACHE") "kv1.sqlite" "/state/kv/kv1.sqlite"]
        "MISSING"
      = some (StateFile.mk (some "CACHE") "kv1.sqlite" "/state/kv/kv1.sqlite") := by
  constructor
  · decide
  · decide

/-- Claim C2, amended: only the actor-storage accessor fails with NotFound on
an unknown binding name. The relational and key-value accessors return
NotFound only when their file list is empty or when the binding parses as an
out-of-range integer index; an unmatched non-numeric binding falls back to
the first file of that type. -/
theorem accessor_unknown_binding_behavior
    (files : List StateFile) (binding manifestName : String)
    (doList : List ManifestDOEntry) (listing : Option (List String))
    (hfind : files.find?
      (fun f => f.binding == some binding || strStartsWith f.filename binding)
      = none) :
    (parseIntJs binding = none →
      d1GetDatabase files binding = files.head? ∧
      kvGetDatabase files binding = files.head?) ∧
    (∀ i : Int, parseIntJs binding = some i →
      (i < 0 ∨ (files.length : Int) ≤ i) →
      d1GetDatabase files binding = none ∧
      kvGetDatabase files binding = none) ∧
    (files = [] →
      d1GetDatabase files binding = none ∧
      kvGetDatabase files binding = none) ∧
    (doList.find? (fun d => d.binding == binding) = none →
      findDODir manifestName doList listing binding = none) := by
  refine ⟨?_, ?_, ?_, ?_⟩
  · intro hp
    constructor
    · simp [d1GetDatabase, resolveStateFile, hfind, hp]
    · simp [kvGetDatabase, resolveStateFile, hfind, hp]
  · intro i hp hout
    have hidx : jsIndex files i = none := by
      rw [jsIndex, dif_neg]
      rcases hout with h | h
      · omega
      · omega
    constructor
    · simp [d1GetDatabase, resolveStateFile, hfind, hp, hidx]
    · simp [kvGetDatabase, resolveStateFile, hfind, hp, hidx]
  · intro he
    subst he
    cases hp : parseIntJs binding with
    | none => constructor <;> simp [d1GetDatabase, kvGetDatabase, resolveStateFile, hp]
    | some i =>
      have hidx : jsIndex ([] : List StateFile) i = none := by
        rw [jsIndex, dif_neg]
        intro hcon
        exact absurd hcon.2 (by simp)
      constructor <;>
        simp [d1GetDatabase, kvGetDatabase, resolveStateFile, hp, hidx]
  · intro hdo
    simp [findDODir, hdo]

theorem accessor_unknown_binding_behavior_witness :
    ([StateFile.mk (some "DB") "db1.sqlite" "/p"].find?
        (fun f => f.binding == some "UNKNOWN" ||
          strStartsWith f.filename "UNKNOWN") = none) ∧
    ((parseIntJs "UNKNOWN" = none →
      d1GetDatabase [StateFile.mk (some "DB") "db1.sqlite" "/p"] "UNKNOWN"
        = [StateFile.mk (some "DB") "db1.sqlite" "/p"].head? ∧
      kvGetDatabase [StateFile.mk (some "DB") "db1.sqlite" "/p"] "UNKNOWN"
        = [StateFile.mk (some "DB") "db1.sqlite" "/p"].head?) ∧
    (∀ i : Int, parseIntJs "UNKNOWN" = some i →
      (i < 0 ∨ (([StateFile.mk (some "DB") "db1.sqlite" "/p"].length : Int) ≤ i)) →
      d1GetDatabase [StateFile.mk (some "DB") "db1.sqlite" "/p"] "UNKNOWN" = none ∧
      kvGetDatabase [StateFile.mk (some "DB") "db1.sqlite" "/p"] "UNKNOWN" = none) ∧
    ([StateFile.mk (some "DB") "db1.sqlite" "/p"] = ([] : List StateFile) →
      d1GetDatabase [StateFile.mk (some "DB") "db1.sqlite" "/p"] "UNKNOWN" = none ∧
      kvGetDatabase [StateFile.mk (some "DB") "db1.sqlite" "/p"] "UNKNOWN" = none) ∧
    (([ManifestDOEntry.mk "COUNTER" "Counter"].find?
        (fun d => d.binding == "UNKNOWN") = none) →
      findDODir "svc" [ManifestDOEntry.mk "COUNTER" "Counter"]
        (some ["svc-Counter"]) "UNKNOWN" = none)) :=
  ⟨by decide,
    accessor_unknown_binding_behavior
      [StateFile.mk (some "DB") "db1.sqlite" "/p"] "UNKNOWN" "svc"
      [ManifestDOEntry.mk "COUNTER" "Counter"] (some ["svc-Counter"])
      (by decide)⟩

/-- Claim C9: actor-storage directory resolution over the candidate
directories ending in the class suffix: the directory named exactly
manifestName-className is chosen when present (even when not
lexicographically first, as the witness shows), else the sole candidate,
else the lexicographically smallest candidate. -/
theorem find_do_dir_resolution
    (manifestName className bindingName : String)
    (doList : List ManifestDOEntry) (names : List String)
    (hfind : doList.find? (fun d => d.binding == bindingName)
      = some (ManifestDOEntry.mk bindingName className))
    (cands : List String)
    (hcands : cands = names.filter
      (fun d => strEndsWith d ("-" ++ className)))
    (hne : cands ≠ []) :
    (manifestName ++ "-" ++ className ∈ cands →
      findDODir manifestName doList (some names) bindingName
        = some (manifestName ++ "-" ++ className)) ∧
    (manifestName ++ "-" ++ className ∉ cands →
      ∀ d, cands = [d] →
        findDODir manifestName doList (some names) bindingName = some d) ∧
    (manifestName ++ "-" ++ className ∉ cands → 2 ≤ cands.length →
      ∃ m, findDODir manifestName doList (some names) bindingName = some m ∧
        m ∈ cands ∧ ∀ x ∈ cands, lexLe m x = true) := by
  have hne' : cands.isEmpty = false := by
    cases cands with
    | nil => cases hne rfl
    | cons a l => rfl
  refine ⟨?_, ?_, ?_⟩
  · intro hmem
    simp only [findDODir, hfind]
    rw [← hcands, hne']
    simp only [Bool.false_eq_true, if_false]
    rw [find?_beq_self cands (manifestName ++ "-" ++ className) hmem]
  · intro hnotmem d hd
    have hfe : cands.find?
        (fun x => x == manifestName ++ "-" ++ className) = none := by
      rw [List.find?_eq_none]
      intro x hx hbeq
      rw [beq_iff_eq] at hbeq
      exact hnotmem (hbeq ▸ hx)
    simp only [findDODir, hfind]
    rw [← hcands, hne']
    simp only [Bool.false_eq_true, if_false]
    rw [hfe, hd]
    rfl
  · intro hnotmem hlen
    obtain ⟨m, rest, hsort, hmem, hmin⟩ := sortStrings_min cands hne
    have hfe : cands.find?
        (fun x => x == manifestName ++ "-" ++ className) = none := by
      rw [List.find?_eq_none]
      intro x hx hbeq
      rw [beq_iff_eq] at hbeq
      exact hnotmem (hbeq ▸ hx)
    refine ⟨m, ?_, hmem, hmin⟩
    simp only [findDODir, hfind]
    rw [← hcands, hne']
    simp only [Bool.false_eq_true, if_false]
    rw [hfe]
    have hlen1 : (cands.length == 1) = false := by
      simp only [beq_eq_false_iff_ne]
      omega
    rw [hlen1]
    simp only [Bool.false_eq_true, if_false]
    rw [hsort]
    rfl

theorem find_do_dir_resolution_witness :
    (([ManifestDOEntry.mk "COUNTER" "Counter"].find?
        (fun d => d.binding == "COUNTER")
        = some (ManifestDOEntry.mk "COUNTER" "Counter")) ∧
      (["other-Counter", "svc-Counter", "svc2-Counter"] : List String)
        = ["other-Counter", "svc-Counter", "svc2-Counter"].filter
            (fun d => strEndsWith d ("-" ++ "Counter")) ∧
      (["other-Counter", "svc-Counter", "svc2-Counter"] : List String) ≠ []) ∧
    ("svc" ++ "-" ++ "Counter" ∈
        (["other-Counter", "svc-Counter", "svc2-Counter"] : List String) →
      findDODir "svc" [ManifestDOEntry.mk "COUNTER" "Counter"]
          (some ["other-Counter", "svc-Counter", "svc2-Counter"]) "COUNTER"
        = some ("svc" ++ "-" ++ "Counter")) ∧
    ("svc" ++ "-" ++ "Counter" ∉
        (["other-Counter", "svc-Counter", "svc2-Counter"] : List String) →
      ∀ d, (["other-Counter", "svc-Counter", "svc2-Counter"] : List String) = [d] →
        findDODir "svc" [ManifestDOEntry.mk "COUNTER" "Counter"]
          (some ["other-Counter", "svc-Counter", "svc2-Counter"]) "COUNTER"
          = some d) ∧
    ("svc" ++ "-" ++ "Counter" ∉
        (["other-Counter", "svc-Counter", "svc2-Counter"] : List String) →
      2 ≤ (["other-Counter", "svc-Counter", "svc2-Counter"] : List String).length →
      ∃ m, findDODir "svc" [ManifestDOEntry.mk "COUNTER" "Counter"]
          (some ["other-Counter", "svc-Counter", "svc2-Counter"]) "COUNTER"
          = some m ∧
        m ∈ (["other-Counter", "svc-Counter", "svc2-Counter"] : List String) ∧
        ∀ x ∈ (["other-Counter", "svc-Counter", "svc2-Counter"] : List String),
          lexLe m x = true) :=
  ⟨⟨by decide, by decide, by decide⟩,
    find_do_dir_resolution "svc" "Counter" "COUNTER"
      [ManifestDOEntry.mk "COUNTER" "Counter"]
      ["other-Counter", "svc-Counter", "svc2-Counter"]
      (by decide)
      ["other-Counter", "svc-Counter", "svc2-Counter"]
      (by decide) (by decide)⟩

/-- Claim C10: deleting a key or object with no metadata row (also as part of
a bulk delete where no listed key has a row) reports success and leaves the
metadata rows and the blob directory unchanged. -/
theorem delete_missing_key_idempotent
    (s : KVState) (t : R2State) (key : String) (keys : List String)
    (hs : alistGet s.rows key = none)
    (ht : alistGet t.rows key = none)
    (hks : ∀ k ∈ keys, alistGet s.rows k = none)
    (hkt : ∀ k ∈ keys, alistGet t.rows k = none) :
    kvDelete s key = (s, true) ∧
    r2Delete t key = (t, true) ∧
    kvBulkDelete s keys = (s, true, keys.length) ∧
    r2BulkDelete t keys = (t, true, keys.length) := by
  refine ⟨?_, ?_, ?_, ?_⟩
  · simp [kvDelete, hs]
  · simp [r2Delete, ht, alistRemove_of_not_mem t.rows key ht]
  · have hfold : ∀ ks : List String, (∀ k ∈ ks, alistGet s.rows k = none) →
        ks.foldl
          (fun st k =>
            match alistGet st.rows k with
            | some row => ⟨alistRemove st.blobs row.blob_id, alistRemove st.rows k⟩
            | none => st)
          s = s := by
      intro ks
      induction ks with
      | nil => intro _; rfl
      | cons k ks ih =>
        intro hall
        rw [List.foldl_cons]
        have hk : alistGet s.rows k = none := hall k (by simp)
        have hstep :
            (match alistGet s.rows k with
              | some row =>
                (⟨alistRemove s.blobs row.blob_id, alistRemove s.rows k⟩ : KVState)
              | none => s) = s := by
          rw [hk]
        rw [hstep]
        exact ih (fun k' hk' => hall k' (by simp [hk']))
    simp only [kvBulkDelete]
    rw [hfold keys hks]
  · have hfold : ∀ ks : List String, (∀ k ∈ ks, alistGet t.rows k = none) →
        ks.foldl
          (fun st k =>
            let st1 : R2State :=
              match alistGet st.rows k with
              | some row =>
                match row.blob_id with
                | some b => if b = "" then st else ⟨alistRemove st.blobs b, st.rows⟩
                | none => st
              | none => st
            ⟨st1.blobs, alistRemove st1.rows k⟩)
          t = t := by
      intro ks
      induction ks with
      | nil => intro _; rfl
      | cons k ks ih =>
        intro hall
        rw [List.foldl_cons]
        have hk : alistGet t.rows k = none := hall k (by simp)
        have hstep :
            (⟨(match alistGet t.rows k with
                | some row =>
                  match row.blob_id with
                  | some b => if b = "" then t else ⟨alistRemove t.blobs b, t.rows⟩
                  | none => t
                | none => t : R2State).blobs,
              alistRemove
                (match alistGet t.rows k with
                  | some row =>
                    match row.blob_id with
                    | some b => if b = "" then t else ⟨alistRemove t.blobs b, t.rows⟩
                    | none => t
                  | none => t : R2State).rows k⟩ : R2State) = t := by
          rw [hk]
          simp only
          rw [alistRemove_of_not_mem t.rows k hk]
        rw [hstep]
        exact ih (fun k' hk' => hall k' (by simp [hk']))
    simp only [r2BulkDelete]
    rw [hfold keys hkt]

theorem delete_missing_key_idempotent_witness :
    (alistGet
        (KVState.mk [("b0", "v1")] [("a", KVRow.mk "b0" none none)]).rows "zzz"
        = none ∧
      alistGet
        (R2State.mk [("c0", "w1")]
          [("a", R2Row.mk (some "c0") "ver" 2 "e0" 0 "text/plain" [])]).rows "zzz"
        = none ∧
      (∀ k ∈ ["zzz", "yyy"],
        alistGet
          (KVState.mk [("b0", "v1")] [("a", KVRow.mk "b0" none none)]).rows k
          = none) ∧
      (∀ k ∈ ["zzz", "yyy"],
        alistGet
          (R2State.mk [("c0", "w1")]
            [("a", R2Row.mk (some "c0") "ver" 2 "e0" 0 "text/plain" [])]).rows k
          = none)) ∧
    (kvDelete (KVState.mk [("b0", "v1")] [("a", KVRow.mk "b0" none none)]) "zzz"
        = (KVState.mk [("b0", "v1")] [("a", KVRow.mk "b0" none none)], true) ∧
      r2Delete
          (R2State.mk [("c0", "w1")]
            [("a", R2Row.mk (some "c0") "ver" 2 "e0" 0 "text/plain" [])]) "zzz"
        = (R2State.mk [("c0", "w1")]
            [("a", R2Row.mk (some "c0") "ver" 2 "e0" 0 "text/plain" [])], true) ∧
      kvBulkDelete (KVState.mk [("b0", "v1")] [("a", KVRow.mk "b0" none none)])
          ["zzz", "yyy"]
        = (KVState.mk [("b0", "v1")] [("a", KVRow.mk "b0" none none)], true,
            (["zzz", "yyy"] : List String).length) ∧
      r2BulkDelete
          (R2State.mk [("c0", "w1")]
            [("a", R2Row.mk (some "c0") "ver" 2 "e0" 0 "text/plain" [])])
          ["zzz", "yyy"]
        = (R2State.mk [("c0", "w1")]
            [("a", R2Row.mk (some "c0") "ver" 2 "e0" 0 "text/plain" [])], true,
            (["zzz", "yyy"] : List String).length)) :=
  ⟨⟨by decide, by decide, by decide, by decide⟩,
    delete_missing_key_idempotent
      (KVState.mk [("b0", "v1")] [("a", KVRow.mk "b0" none none)])
      (R2State.mk [("c0", "w1")]
        [("a", R2Row.mk (some "c0") "ver" 2 "e0" 0 "text/plain" [])])
      "zzz" ["zzz", "yyy"]
      (by decide) (by decide) (by decide) (by decide)⟩

/-- Claim C6, counterexample: a metadata row whose expiration column holds 0
(an epoch-seconds value earlier than the current time) is not reported as
not-found; the JS truthiness guard skips the expiration check and the value
is returned. -/
theorem kv_get_zero_expiration_counterexample :
    kvGet 1700000000000
        (KVState.mk [("b", "v")] [("k", KVRow.mk "b" (some 0) none)]) "k"
      = KVGetResult.ok "k" "v" none := by decide

/-- Claim C6, amended: a key-value GET of a key whose row exists and carries
a nonzero expiration earlier than the current time is reported with the same
404 Key not found response as an absent row (a zero expiration is JS-falsy
and is treated as no expiration; see the counterexample). -/
theorem kv_get_expired_not_found
    (nowMs e : Int) (s : KVState) (key : String) (row : KVRow)
    (hrow : alistGet s.rows key = some row)
    (hexp : row.expiration = some e) (hz : e ≠ 0) (hlt : e * 1000 < nowMs) :
    kvGet nowMs s key = KVGetResult.err "Key not found" 404 ∧
    ∀ s2 : KVState, alistGet s2.rows key = none →
      kvGet nowMs s2 key = KVGetResult.err "Key not found" 404 := by
  constructor
  · have h1 : jsTruthyIntOpt row.expiration = true := by
      rw [hexp]
      simpa [jsTruthyIntOpt] using hz
    have h2 : decide (row.expiration.getD 0 * 1000 < nowMs) = true := by
      rw [hexp]
      simpa using hlt
    simp only [kvGet, hrow, h1, h2]
    rfl
  · intro s2 h2
    simp only [kvGet, h2]

theorem kv_get_expired_not_found_witness :
    (alistGet
        (KVState.mk [("b", "v")] [("k", KVRow.mk "b" (some 1000) none)]).rows "k"
        = some (KVRow.mk "b" (some 1000) none) ∧
      (KVRow.mk "b" (some 1000) none).expiration = some 1000 ∧
      (1000 : Int) ≠ 0 ∧ (1000 : Int) * 1000 < 1700000000000) ∧
    (kvGet 1700000000000
        (KVState.mk [("b", "v")] [("k", KVRow.mk "b" (some 1000) none)]) "k"
      = KVGetResult.err "Key not found" 404 ∧
      ∀ s2 : KVState, alistGet s2.rows "k" = none →
        kvGet 1700000000000 s2 "k" = KVGetResult.err "Key not found" 404) :=
  ⟨⟨by decide, by decide, by decide, by decide⟩,
    kv_get_expired_not_found 1700000000000 1000
      (KVState.mk [("b", "v")] [("k", KVRow.mk "b" (some 1000) none)]) "k"
      (KVRow.mk "b" (some 1000) none)
      (by decide) (by decide) (by decide) (by decide)⟩

/-- Claim C1, counterexample: overwriting key k (old blob b0, new blob b1)
passes through the intermediate state at index 2 of the put trace — after
the new blob write and the old blob delete but before the row upsert — in
which the readable metadata row of k still references the already-deleted
blob b0: the old blob is deleted before the row swap, not after it. -/
theorem kv_put_dangling_row_counterexample :
    ((kvPutStates 1700000000000
        (KVState.mk [("b0", "v1")] [("k", KVRow.mk "b0" none none)])
        "k" "b1" "v2" none none none)[2]?).map
      (fun m => (alistGet m.rows "k", alistGet m.blobs "b0"))
    = some (some (KVRow.mk "b0" none none), none) := by decide

/-- Claim C1, amended: for an overwriting key-value or object-storage PUT
(with a fresh blob id), the operation writes the new blob first, then
deletes the previous blob, then upserts the metadata row — in that order;
consequently the state between the delete and the upsert has a readable
metadata row referencing the already-deleted old blob, while the final
state maps the key to the new row and the new blob is live from its write
onwards. -/
theorem put_write_delete_upsert_order
    (nowMs : Int) (s : KVState) (key blobId value : String)
    (bexp bttl : Option Int) (bmeta : Option String) (r : KVRow)
    (hrow : alistGet s.rows key = some r) (hne : r.blob_id ≠ blobId)
    (t : R2State) (key2 blobId2 version data etag : String) (uploaded : Int)
    (ct : String) (cm : List (String × String)) (orow : R2Row) (b2 : String)
    (hrow2 : alistGet t.rows key2 = some orow) (hb2 : orow.blob_id = some b2)
    (hb2nz : b2 ≠ "") (hne2 : b2 ≠ blobId2) :
    (∃ mid, (kvPutStates nowMs s key blobId value bexp bttl bmeta)[2]?
        = some mid ∧
      alistGet mid.rows key = some r ∧
      alistGet mid.blobs r.blob_id = none ∧
      alistGet mid.blobs blobId = some value) ∧
    (∃ fin, (kvPutStates nowMs s key blobId value bexp bttl bmeta)[3]?
        = some fin ∧
      alistGet fin.rows key
        = some (KVRow.mk blobId (computeExpiration nowMs bexp bttl) bmeta) ∧
      alistGet fin.blobs blobId = some value) ∧
    (∃ mid2, (r2PutStates t key2 blobId2 version data etag uploaded ct cm)[2]?
        = some mid2 ∧
      alistGet mid2.rows key2 = some orow ∧
      alistGet mid2.blobs b2 = none ∧
      alistGet mid2.blobs blobId2 = some data) ∧
    (∃ fin2, (r2PutStates t key2 blobId2 version data etag uploaded ct cm)[3]?
        = some fin2 ∧
      alistGet fin2.rows key2
        = some (R2Row.mk (some blobId2) version data.length etag uploaded ct cm) ∧
      alistGet fin2.blobs blobId2 = some data) := by
  refine ⟨?_, ?_, ?_, ?_⟩
  · refine ⟨⟨alistRemove (alistSet s.blobs blobId value) r.blob_id, s.rows⟩,
      ?_, hrow, alistGet_remove_self _ _, ?_⟩
    · simp only [kvPutStates, hrow]
      rfl
    · rw [alistGet_remove_ne _ _ _ hne, alistGet_set_self]
  · refine ⟨⟨alistRemove (alistSet s.blobs blobId value) r.blob_id,
      alistSet s.rows key
        (KVRow.mk blobId (computeExpiration nowMs bexp bttl) bmeta)⟩,
      ?_, alistGet_set_self _ _ _, ?_⟩
    · simp only [kvPutStates, hrow]
      rfl
    · rw [alistGet_remove_ne _ _ _ hne, alistGet_set_self]
  · refine ⟨⟨alistRemove (alistSet t.blobs blobId2 data) b2, t.rows⟩,
      ?_, hrow2, alistGet_remove_self _ _, ?_⟩
    · simp only [r2PutStates, hrow2, hb2, if_neg hb2nz]
      rfl
    · rw [alistGet_remove_ne _ _ _ hne2, alistGet_set_self]
  · refine ⟨⟨alistRemove (alistSet t.blobs blobId2 data) b2,
      alistSet t.rows key2
        (R2Row.mk (some blobId2) version data.length etag uploaded ct cm)⟩,
      ?_, alistGet_set_self _ _ _, ?_⟩
    · simp only [r2PutStates, hrow2, hb2, if_neg hb2nz]
      rfl
    · rw [alistGet_remove_ne _ _ _ hne2, alistGet_set_self]

theorem put_write_delete_upsert_order_witness :
    (alistGet
        (KVState.mk [("b0", "v1")] [("k", KVRow.mk "b0" none none)]).rows "k"
        = some (KVRow.mk "b0" none none) ∧
      (KVRow.mk "b0" none none).blob_id ≠ "b1" ∧
      alistGet
        (R2State.mk [("c0", "w1")]
          [("o", R2Row.mk (some "c0") "ver0" 2 "e0" 0 "text/plain" [])]).rows "o"
        = some (R2Row.mk (some "c0") "ver0" 2 "e0" 0 "text/plain" []) ∧
      (R2Row.mk (some "c0") "ver0" 2 "e0" 0 "text/plain" []).blob_id
        = some "c0" ∧
      ("c0" : String) ≠ "" ∧ ("c0" : String) ≠ "c1") ∧
    ((∃ mid, (kvPutStates 1700000000000
          (KVState.mk [("b0", "v1")] [("k", KVRow.mk "b0" none none)])
          "k" "b1" "v2" none none none)[2]? = some mid ∧
        alistGet mid.rows "k" = some (KVRow.mk "b0" none none) ∧
        alistGet mid.blobs (KVRow.mk "b0" none none).blob_id = none ∧
        alistGet mid.blobs "b1" = some "v2") ∧
      (∃ fin, (kvPutStates 1700000000000
          (KVState.mk [("b0", "v1")] [("k", KVRow.mk "b0" none none)])
          "k" "b1" "v2" none none none)[3]? = some fin ∧
        alistGet fin.rows "k"
          = some (KVRow.mk "b1" (computeExpiration 1700000000000 none none) none) ∧
        alistGet fin.blobs "b1" = some "v2") ∧
      (∃ mid2, (r2PutStates
          (R2State.mk [("c0", "w1")]
            [("o", R2Row.mk (some "c0") "ver0" 2 "e0" 0 "text/plain" [])])
          "o" "c1" "ver1" "w2" "e1" 5 "text/plain" [])[2]? = some mid2 ∧
        alistGet mid2.rows "o"
          = some (R2Row.mk (some "c0") "ver0" 2 "e0" 0 "text/plain" []) ∧
        alistGet mid2.blobs "c0" = none ∧
        alistGet mid2.blobs "c1" = some "w2") ∧
      (∃ fin2, (r2PutStates
          (R2State.mk [("c0", "w1")]
            [("o", R2Row.mk (some "c0") "ver0" 2 "e0" 0 "text/plain" [])])
          "o" "c1" "ver1" "w2" "e1" 5 "text/plain" [])[3]? = some fin2 ∧
        alistGet fin2.rows "o"
          = some (R2Row.mk (some "c1") "ver1" ("w2" : String).length "e1" 5
              "text/plain" []) ∧
        alistGet fin2.blobs "c1" = some "w2")) :=
  ⟨⟨by decide, by decide, by decide, by decide, by decide, by decide⟩,
    put_write_delete_upsert_order 1700000000000
      (KVState.mk [("b0", "v1")] [("k", KVRow.mk "b0" none none)])
      "k" "b1" "v2" none none none (KVRow.mk "b0" none none)
      (by decide) (by decide)
      (R2State.mk [("c0", "w1")]
        [("o", R2Row.mk (some "c0") "ver0" 2 "e0" 0 "text/plain" [])])
      "o" "c1" "ver1" "w2" "e1" 5 "text/plain" []
      (R2Row.mk (some "c0") "ver0" 2 "e0" 0 "text/plain" []) "c0"
      (by decide) (by decide) (by decide) (by decide)⟩

theorem merge_first_wins {α β : Type} (kA : α → String) (kB : β → String)
    (f : α → β) (hk : ∀ a, kB (f a) = kA a)
    (g : WranglerConfig → List α) (A : WranglerConfig)
    (rest : List WranglerConfig) (n : String) (d : α)
    (h1 : (g A).find? (fun x => kA x == n) = some d) :
    (dedupeKeyed kB ((A :: rest).flatMap (fun c => (g c).map f)) []).filter
      (fun x => kB x == n) = [f d] := by
  rw [dedupeKeyed_filter, if_neg (List.not_mem_nil n)]
  have hflat : (A :: rest).flatMap (fun c => (g c).map f)
      = (g A).map f ++ rest.flatMap (fun c => (g c).map f) := by
    simp [List.flatMap_cons]
  rw [hflat, List.find?_append,
    find?_map_key f (fun x => kB x == n) (fun a => kA a == n)
      (fun a => by show (kB (f a) == n) = (kA a == n); rw [hk]) (g A),
    h1]
  rfl

/-- Claim C3: in the manifest merged from configs A then rest, for every
binding type, a binding name declared both in A (first occurrence d) and in
some later config appears exactly once in the merged manifest and equals
A's declaration. -/
theorem merged_manifest_first_occurrence_wins
    (A : WranglerConfig) (rest : List WranglerConfig) (m : LocalflareManifest)
    (hm : createMergedManifest (A :: rest) = some m)
    (n1 n2 n3 n4 n5 n6 : String)
    (d : D1DatabaseConfig) (kvc : KVNamespaceConfig) (r2c : R2BucketConfig)
    (pc : QueueProducerConfig) (dob : DurableObjectBinding)
    (vc : String × String)
    (h1 : A.d1_databases.find? (fun x => x.binding == n1) = some d)
    (h1b : ∃ B ∈ rest, ∃ x ∈ B.d1_databases, x.binding = n1)
    (h2 : A.kv_namespaces.find? (fun x => x.binding == n2) = some kvc)
    (h2b : ∃ B ∈ rest, ∃ x ∈ B.kv_namespaces, x.binding = n2)
    (h3 : A.r2_buckets.find? (fun x => x.binding == n3) = some r2c)
    (h3b : ∃ B ∈ rest, ∃ x ∈ B.r2_buckets, x.binding = n3)
    (h4 : A.queueProducers.find? (fun x => x.binding == n4) = some pc)
    (h4b : ∃ B ∈ rest, ∃ x ∈ B.queueProducers, x.binding = n4)
    (h5 : A.durable_objects.find? (fun x => x.name == n5) = some dob)
    (h5b : ∃ B ∈ rest, ∃ x ∈ B.durable_objects, x.name = n5)
    (h6 : A.vars.find? (fun x => x.1 == n6) = some vc)
    (h6b : ∃ B ∈ rest, ∃ x ∈ B.vars, x.1 = n6) :
    m.d1.filter (fun x => x.binding == n1)
      = [ManifestD1.mk d.binding d.database_name] ∧
    m.kv.filter (fun x => x.binding == n2) = [ManifestKV.mk kvc.binding] ∧
    m.r2.filter (fun x => x.binding == n3)
      = [ManifestR2.mk r2c.binding r2c.bucket_name] ∧
    m.producers.filter (fun x => x.binding == n4)
      = [ManifestProducer.mk pc.binding pc.queue] ∧
    m.doBindings.filter (fun x => x.binding == n5)
      = [ManifestDOEntry.mk dob.name dob.class_name] ∧
    m.vars.filter (fun x => x.key == n6)
      = [ManifestVar.mk vc.1 vc.2 (looksLikeSecret vc.1 vc.2)] := by
  unfold createMergedManifest at hm
  rw [Option.some.injEq] at hm
  subst hm
  refine ⟨?_, ?_, ?_, ?_, ?_, ?_⟩
  · exact merge_first_wins (fun x => x.binding) (fun e => e.binding)
      (fun x => ManifestD1.mk x.binding x.database_name) (fun _ => rfl)
      (fun c => c.d1_databases) A rest n1 d h1
  · exact merge_first_wins (fun x => x.binding) (fun e => e.binding)
      (fun x => ManifestKV.mk x.binding) (fun _ => rfl)
      (fun c => c.kv_namespaces) A rest n2 kvc h2
  · exact merge_first_wins (fun x => x.binding) (fun e => e.binding)
      (fun x => ManifestR2.mk x.binding x.bucket_name) (fun _ => rfl)
      (fun c => c.r2_buckets) A rest n3 r2c h3
  · exact merge_first_wins (fun x => x.binding) (fun e => e.binding)
      (fun x => ManifestProducer.mk x.binding x.queue) (fun _ => rfl)
      (fun c => c.queueProducers) A rest n4 pc h4
  · exact merge_first_wins (fun x => x.name) (fun e => e.binding)
      (fun x => ManifestDOEntry.mk x.name x.class_name) (fun _ => rfl)
      (fun c => c.durable_objects) A rest n5 dob h5
  · exact merge_first_wins (fun x => x.1) (fun e => e.key)
      (fun x => ManifestVar.mk x.1 x.2 (looksLikeSecret x.1 x.2)) (fun _ => rfl)
      (fun c => c.vars) A rest n6 vc h6

theorem merged_manifest_first_occurrence_wins_witness :
    ((createMergedManifest [witnessMergeA, witnessMergeB]).isSome ∧
      witnessMergeA.d1_databases.find? (fun x => x.binding == "DB")
        = some (D1DatabaseConfig.mk "DB" "adb" "aid") ∧
      (∃ B ∈ [witnessMergeB], ∃ x ∈ B.d1_databases, x.binding = "DB") ∧
      witnessMergeA.kv_namespaces.find? (fun x => x.binding == "KV")
        = some (KVNamespaceConfig.mk "KV" "akv") ∧
      (∃ B ∈ [witnessMergeB], ∃ x ∈ B.kv_namespaces, x.binding = "KV") ∧
      witnessMergeA.r2_buckets.find? (fun x => x.binding == "BUCKET")
        = some (R2BucketConfig.mk "BUCKET" "abucket") ∧
      (∃ B ∈ [witnessMergeB], ∃ x ∈ B.r2_buckets, x.binding = "BUCKET") ∧
      witnessMergeA.queueProducers.find? (fun x => x.binding == "Q")
        = some (QueueProducerConfig.mk "Q" "aqueue") ∧
      (∃ B ∈ [witnessMergeB], ∃ x ∈ B.queueProducers, x.binding = "Q") ∧
      witnessMergeA.durable_objects.find? (fun x => x.name == "DO")
        = some (DurableObjectBinding.mk "DO" "AClass" none) ∧
      (∃ B ∈ [witnessMergeB], ∃ x ∈ B.durable_objects, x.name = "DO") ∧
      witnessMergeA.vars.find? (fun x => x.1 == "V") = some ("V", "av") ∧
      (∃ B ∈ [witnessMergeB], ∃ x ∈ B.vars, x.1 = "V")) ∧
    ∀ m : LocalflareManifest,
      createMergedManifest [witnessMergeA, witnessMergeB] = some m →
      m.d1.filter (fun x => x.binding == "DB") = [ManifestD1.mk "DB" "adb"] ∧
      m.kv.filter (fun x => x.binding == "KV") = [ManifestKV.mk "KV"] ∧
      m.r2.filter (fun x => x.binding == "BUCKET")
        = [ManifestR2.mk "BUCKET" "abucket"] ∧
      m.producers.filter (fun x => x.binding == "Q")
        = [ManifestProducer.mk "Q" "aqueue"] ∧
      m.doBindings.filter (fun x => x.binding == "DO")
        = [ManifestDOEntry.mk "DO" "AClass"] ∧
      m.vars.filter (fun x => x.key == "V")
        = [ManifestVar.mk "V" "av" (looksLikeSecret "V" "av")] :=
  ⟨⟨by decide, by decide, by decide, by decide, by decide, by decide, by decide,
      by decide, by decide, by decide, by decide, by decide, by decide⟩,
    fun m hm =>
      merged_manifest_first_occurrence_wins witnessMergeA [witnessMergeB] m hm
        "DB" "KV" "BUCKET" "Q" "DO" "V"
        (D1DatabaseConfig.mk "DB" "adb" "aid") (KVNamespaceConfig.mk "KV" "akv")
        (R2BucketConfig.mk "BUCKET" "abucket") (QueueProducerConfig.mk "Q" "aqueue")
        (DurableObjectBinding.mk "DO" "AClass" none) ("V", "av")
        (by decide) (by decide) (by decide) (by decide) (by decide) (by decide)
        (by decide) (by decide) (by decide) (by decide) (by decide) (by decide)⟩

theorem ownerFold_some (C w : String) (bs : List DurableObjectBinding) :
    ∀ (m : List (String × String)) (v : String), alistGet m C = some v →
      alistGet (bs.foldl (ownerStep w) m) C = some v := by
  induction bs with
  | nil => intro m v h; exact h
  | cons b bs ih =>
    intro m v h
    rw [List.foldl_cons]
    refine ih _ v ?_
    unfold ownerStep
    by_cases hc : (!jsTruthyStrOpt b.script_name
        && (alistGet m b.class_name).isNone) = true
    · rw [if_pos hc, alistGet_append_single, h]
    · rw [if_neg hc]; exact h

theorem ownerFold_none (C w : String) (bs : List DurableObjectBinding) :
    ∀ m : List (String × String), alistGet m C = none →
      (∀ b ∈ bs, b.class_name = C → jsTruthyStrOpt b.script_name = true) →
      alistGet (bs.foldl (ownerStep w) m) C = none := by
  induction bs with
  | nil => intro m h _; exact h
  | cons b bs ih =>
    intro m h hno
    rw [List.foldl_cons]
    refine ih _ ?_ (fun b' hb' => hno b' (by simp [hb']))
    unfold ownerStep
    by_cases hc : (!jsTruthyStrOpt b.script_name
        && (alistGet m b.class_name).isNone) = true
    · have hbC : b.class_name ≠ C := by
        intro he
        have ht := hno b (by simp) he
        rw [Bool.and_eq_true, Bool.not_eq_true'] at hc
        rw [hc.1] at ht
        cases ht
      rw [if_pos hc, alistGet_append_single, h, if_neg hbC]
    · rw [if_neg hc]; exact h

theorem ownerFold_insert (C w : String) (bs : List DurableObjectBinding) :
    ∀ m : List (String × String), alistGet m C = none →
      (∃ b ∈ bs, b.class_name = C ∧ jsTruthyStrOpt b.script_name = false) →
      alistGet (bs.foldl (ownerStep w) m) C = some w := by
  induction bs with
  | nil =>
    intro m _ hex
    obtain ⟨b, hb, _⟩ := hex
    cases hb
  | cons b bs ih =>
    intro m h hex
    rw [List.foldl_cons]
    by_cases hb : b.class_name = C ∧ jsTruthyStrOpt b.script_name = false
    · refine ownerFold_some C w bs _ w ?_
      unfold ownerStep
      have hc : (!jsTruthyStrOpt b.script_name
          && (alistGet m b.class_name).isNone) = true := by
        rw [hb.2, hb.1, h]
        rfl
      rw [if_pos hc, alistGet_append_single, h, if_pos hb.1]
    · have hstep : alistGet (ownerStep w m b) C = none := by
        unfold ownerStep
        by_cases hc : (!jsTruthyStrOpt b.script_name
            && (alistGet m b.class_name).isNone) = true
        · have hbC : b.class_name ≠ C := by
            intro he
            rw [Bool.and_eq_true, Bool.not_eq_true'] at hc
            exact hb ⟨he, hc.1⟩
          rw [if_pos hc, alistGet_append_single, h, if_neg hbC]
        · rw [if_neg hc]; exact h
      refine ih _ hstep ?_
      rcases hex with ⟨b', hb', hprop⟩
      rcases List.mem_cons.mp hb' with rfl | hmem
      · exact absurd ⟨hprop.1, hprop.2⟩ hb
      · exact ⟨b', hmem, hprop⟩

theorem configsFold_some (C : String) (cs : List WranglerConfig) :
    ∀ (m : List (String × String)) (v : String), alistGet m C = some v →
      alistGet (cs.foldl
        (fun m cfg => cfg.durable_objects.foldl
          (ownerStep (jsOrStr cfg.name "user-worker")) m) m) C = some v := by
  induction cs with
  | nil => intro m v h; exact h
  | cons cfg cs ih =>
    intro m v h
    rw [List.foldl_cons]
    exact ih _ v (ownerFold_some C _ cfg.durable_objects m v h)

theorem configsFold_owner (C nA : String) (cs : List WranglerConfig) :
    ∀ m : List (String × String), alistGet m C = none →
      (∃ cfg ∈ cs, ∃ b ∈ cfg.durable_objects,
        b.class_name = C ∧ jsTruthyStrOpt b.script_name = false) →
      (∀ cfg ∈ cs, ∀ b ∈ cfg.durable_objects,
        b.class_name = C → jsTruthyStrOpt b.script_name = false →
        jsOrStr cfg.name "user-worker" = nA) →
      alistGet (cs.foldl
        (fun m cfg => cfg.durable_objects.foldl
          (ownerStep (jsOrStr cfg.name "user-worker")) m) m) C = some nA := by
  induction cs with
  | nil =>
    intro m _ hex _
    obtain ⟨cfg, hcfg, _⟩ := hex
    cases hcfg
  | cons cfg cs ih =>
    intro m h hex hall
    rw [List.foldl_cons]
    by_cases hc : ∃ b ∈ cfg.durable_objects,
        b.class_name = C ∧ jsTruthyStrOpt b.script_name = false
    · have hw : jsOrStr cfg.name "user-worker" = nA := by
        obtain ⟨b, hbmem, hb1, hb2⟩ := hc
        exact hall cfg (by simp) b hbmem hb1 hb2
      have hins := ownerFold_insert C (jsOrStr cfg.name "user-worker")
        cfg.durable_objects m h hc
      refine configsFold_some C cs _ nA ?_
      rw [← hw]
      exact hins
    · have hno : ∀ b ∈ cfg.durable_objects,
          b.class_name = C → jsTruthyStrOpt b.script_name = true := by
        intro b hbm hbc
        by_contra hbt
        exact hc ⟨b, hbm, hbc, Bool.not_eq_true _ |>.mp hbt⟩
      have hnone := ownerFold_none C (jsOrStr cfg.name "user-worker")
        cfg.durable_objects m h hno
      refine ih _ hnone ?_ (fun cfg' hm' => hall cfg' (by simp [hm']))
      rcases hex with ⟨cfg', hmem, hb⟩
      rcases List.mem_cons.mp hmem with rfl | hmem'
      · exact absurd hb hc
      · exact ⟨cfg', hmem', hb⟩

theorem jsOrStr_ne_empty (x : Option String) (d : String) (hd : d ≠ "") :
    jsOrStr x d ≠ "" := by
  unfold jsOrStr
  cases x with
  | none => exact hd
  | some s =>
    by_cases hs : s = ""
    · simpa [hs] using hd
    · simpa [hs] using hs

/-- Claim C4: when A is the config that locally defines actor class C (its
binding for C carries no script_name) while B only references C through a
remote target, the owner map sends C to A's worker name and every
durable-object binding for C emitted into the shadow config carries that
worker name as its script_name, whatever the declaring config said. The
uniqueness hypothesis huniq states that every local definer of C has A's
worker name, which holds in particular when A is the only local definer. -/
theorem do_class_owner_first_local_definer
    (cs : List WranglerConfig) (A B : WranglerConfig) (C nA : String)
    (hA : A ∈ cs)
    (hAname : jsOrStr A.name "user-worker" = nA)
    (hlocal : ∃ b ∈ A.durable_objects,
      b.class_name = C ∧ jsTruthyStrOpt b.script_name = false)
    (huniq : ∀ cfg ∈ cs, ∀ b ∈ cfg.durable_objects,
      b.class_name = C → jsTruthyStrOpt b.script_name = false →
      jsOrStr cfg.name "user-worker" = nA)
    (hB : B ∈ cs)
    (hremote : ∃ b ∈ B.durable_objects,
      b.class_name = C ∧ jsTruthyStrOpt b.script_name = true) :
    alistGet (buildDOClassOwnerMap cs) C = some nA ∧
    ∀ sb ∈ shadowDOBindings cs, sb.class_name = C → sb.script_name = nA := by
  have hmap : alistGet (buildDOClassOwnerMap cs) C = some nA := by
    unfold buildDOClassOwnerMap
    exact configsFold_owner C nA cs [] rfl ⟨A, hA, hlocal⟩ huniq
  refine ⟨hmap, ?_⟩
  intro sb hsb hclass
  unfold shadowDOBindings at hsb
  simp only [List.mem_map] at hsb
  obtain ⟨b, hb, rfl⟩ := hsb
  have hbc : b.class_name = C := hclass
  have hnA : nA ≠ "" := by
    rw [← hAname]
    exact jsOrStr_ne_empty A.name "user-worker" (by decide)
  show jsOrStr (alistGet (buildDOClassOwnerMap cs) b.class_name)
    (jsOrStr (cs.head?.bind (fun c => c.name)) "user-worker") = nA
  rw [hbc, hmap]
  simp only [jsOrStr]
  rw [if_neg hnA]

theorem do_class_owner_first_local_definer_witness :
    (witnessOwnerA ∈ [witnessOwnerA, witnessOwnerB] ∧
      jsOrStr witnessOwnerA.name "user-worker" = "svc" ∧
      (∃ b ∈ witnessOwnerA.durable_objects,
        b.class_name = "Counter" ∧ jsTruthyStrOpt b.script_name = false) ∧
      (∀ cfg ∈ [witnessOwnerA, witnessOwnerB], ∀ b ∈ cfg.durable_objects,
        b.class_name = "Counter" → jsTruthyStrOpt b.script_name = false →
        jsOrStr cfg.name "user-worker" = "svc") ∧
      witnessOwnerB ∈ [witnessOwnerA, witnessOwnerB] ∧
      (∃ b ∈ witnessOwnerB.durable_objects,
        b.class_name = "Counter" ∧ jsTruthyStrOpt b.script_name = true)) ∧
    (alistGet (buildDOClassOwnerMap [witnessOwnerA, witnessOwnerB]) "Counter"
        = some "svc" ∧
      ∀ sb ∈ shadowDOBindings [witnessOwnerA, witnessOwnerB],
        sb.class_name = "Counter" → sb.script_name = "svc") :=
  ⟨⟨by decide, by decide, by decide, by decide, by decide, by decide⟩,
    do_class_owner_first_local_definer [witnessOwnerA, witnessOwnerB]
      witnessOwnerA witnessOwnerB "Counter" "svc"
      (by decide) (by decide) (by decide) (by decide) (by decide) (by decide)⟩

/-- Claim C8: when the host-side storage listener's address is not
configured, or every forwarded fetch fails, each bridged actor-storage
route answers 503 StorageUnavailable — with the companion-process hint on
the instance-listing route — instead of a success status. The last three
conjuncts discharge the hypothesis for the unset, empty and unreachable
cases. -/
theorem bridge_unavailable_returns_503
    (baseUrl : Option String)
    (oracle : String → RequestInit → Option HttpResponse)
    (binding instanceId table qs body : String)
    (h : ∀ p init, proxyToStorageServer baseUrl oracle p init = none) :
    doInstancesRoute baseUrl oracle binding
      = RouteResponse.unavailable "DO storage server not available"
          (some "Ensure localflare started with DO bindings.") 503 ∧
    doSchemaRoute baseUrl oracle binding instanceId
      = RouteResponse.unavailable "DO storage server not available" none 503 ∧
    doTableInfoRoute baseUrl oracle binding instanceId table
      = RouteResponse.unavailable "DO storage server not available" none 503 ∧
    doTableRowsRoute baseUrl oracle binding instanceId table qs
      = RouteResponse.unavailable "DO storage server not available" none 503 ∧
    doQueryRoute baseUrl oracle binding instanceId body
      = RouteResponse.unavailable "DO storage server not available" none 503 ∧
    doKvEntriesRoute baseUrl oracle binding instanceId qs
      = RouteResponse.unavailable "DO storage server not available" none 503 ∧
    (baseUrl = none →
      ∀ p init, proxyToStorageServer baseUrl oracle p init = none) ∧
    (baseUrl = some "" →
      ∀ p init, proxyToStorageServer baseUrl oracle p init = none) ∧
    ((∀ u init, oracle u init = none) →
      ∀ p init, proxyToStorageServer baseUrl oracle p init = none) := by
  refine ⟨?_, ?_, ?_, ?_, ?_, ?_, ?_, ?_, ?_⟩
  · simp [doInstancesRoute, h]
  · simp [doSchemaRoute, h]
  · simp [doTableInfoRoute, h]
  · simp [doTableRowsRoute, h]
  · simp [doQueryRoute, h]
  · simp [doKvEntriesRoute, h]
  · intro hb p i
    simp [proxyToStorageServer, hb, jsTruthyStrOpt]
  · intro hb p i
    simp [proxyToStorageServer, hb, jsTruthyStrOpt]
  · intro ho p i
    cases hT : jsTruthyStrOpt baseUrl <;>
      simp [proxyToStorageServer, hT, ho]

theorem bridge_unavailable_returns_503_witness :
    (∀ p init,
      proxyToStorageServer none (fun _ _ => none) p init = none) ∧
    (doInstancesRoute none (fun _ _ => none) "COUNTER"
      = RouteResponse.unavailable "DO storage server not available"
          (some "Ensure localflare started with DO bindings.") 503 ∧
    doSchemaRoute none (fun _ _ => none) "COUNTER" "abc"
      = RouteResponse.unavailable "DO storage server not available" none 503 ∧
    doTableInfoRoute none (fun _ _ => none) "COUNTER" "abc" "counts"
      = RouteResponse.unavailable "DO storage server not available" none 503 ∧
    doTableRowsRoute none (fun _ _ => none) "COUNTER" "abc" "counts"
        "limit=10&offset=5"
      = RouteResponse.unavailable "DO storage server not available" none 503 ∧
    doQueryRoute none (fun _ _ => none) "COUNTER" "abc" "SELECT 1"
      = RouteResponse.unavailable "DO storage server not available" none 503 ∧
    doKvEntriesRoute none (fun _ _ => none) "COUNTER" "abc" "limit=10"
      = RouteResponse.unavailable "DO storage server not available" none 503 ∧
    ((none : Option String) = none →
      ∀ p init, proxyToStorageServer none (fun _ _ => none) p init = none) ∧
    ((none : Option String) = some "" →
      ∀ p init, proxyToStorageServer none (fun _ _ => none) p init = none) ∧
    ((∀ u init, (fun (_ : String) (_ : RequestInit) =>
        (none : Option HttpResponse)) u init = none) →
      ∀ p init, proxyToStorageServer none (fun _ _ => none) p init = none)) :=
  ⟨fun _ _ => rfl,
    bridge_unavailable_returns_503 none (fun _ _ => none)
      "COUNTER" "abc" "counts" "limit=10&offset=5" "SELECT 1"
      (fun _ _ => rfl)⟩

end Localflare
